import Mathlib

/-!
Verification of the ensemble fusion and calibration engine of the
medical-image authenticity detector.

The JavaScript source is shallowly embedded over `ℚ`:

* `combineSample`, `evaluateDataset`, `gridSearch`, `persistWeights` and the
  calibration file-upload flow come from `src/utils/calibration.js`;
* `combineResults` comes from the main application class (`XRayDetectorApp`);
* `calculateOverallResults` comes from `EnhancedAIAnalyzer`.

JavaScript values that may be `undefined` are embedded as `Option`;
`x ?? d` becomes `Option.getD`, `x || d` becomes a falsy test that also
replaces an explicit `0`, numbers are rationals, and `Math.round` is
`⌊x + 1/2⌋`.
-/

namespace XRay

/-- Weight vector for the ensemble, mirroring the shape of
`AppConfig.WEIGHTS.ENSEMBLE` and of the objects built by `gridSearch`. -/
structure Weights where
  traditional : ℚ
  enhancedAI : ℚ
  tensorflow : ℚ
  onnxWeb : ℚ
deriving DecidableEq

/-- Per-method entry of a labeled sample's `components` mapping; either field
may be absent in the JSON. -/
structure Component where
  confidence : Option ℚ
  aiProbability : Option ℚ
deriving DecidableEq

/-- A labeled calibration sample.  `label` may be absent (the code coerces it
with `!!s.label`), and each of the four components the calibrator looks up may
be absent. -/
structure Sample where
  label : Option ℤ
  traditional : Option Component
  enhancedAI : Option Component
  tensorflow : Option Component
  onnx : Option Component
deriving DecidableEq

/-- JavaScript truthiness of the `label` field: `!!s.label`. -/
def jsTruthy : Option ℤ → Bool
  | none => false
  | some n => decide (n ≠ 0)

/-- Embedding of `comp.m?.confidence ?? 50`. -/
def confOf : Option Component → ℚ
  | none => 50
  | some c => c.confidence.getD 50

/-- Embedding of `comp.m?.aiProbability ?? 0.5` (nullish coalescing: an
explicit `0` is kept). -/
def probOf : Option Component → ℚ
  | none => 1/2
  | some c => c.aiProbability.getD (1/2)

/-- Embedding of the JavaScript `(x) || 1` applied to the weight sum: `0` is
falsy and is replaced by `1`. -/
def qOr1 (x : ℚ) : ℚ := if x = 0 then 1 else x

/-- The divisor `sumW` used by `combineSample`:
`(w.traditional + w.enhancedAI + w.tensorflow + w.onnxWeb) || 1`. -/
def activeSum (w : Weights) : ℚ :=
  qOr1 (w.traditional + w.enhancedAI + w.tensorflow + w.onnxWeb)

/-- Result record of `combineSample`. -/
structure ScoreProb where
  score : ℚ
  aiProb : ℚ
deriving DecidableEq

/-- Embedding of `combineSample(sample, weights)` from `calibration.js`. -/
def combineSample (s : Sample) (w : Weights) : ScoreProb :=
  let t := confOf s.traditional
  let e := confOf s.enhancedAI
  let tf := confOf s.tensorflow
  let onnx := confOf s.onnx
  let sumW := activeSum w
  let score := (t * w.traditional + e * w.enhancedAI + tf * w.tensorflow +
    onnx * w.onnxWeb) / sumW
  let aiProb := (probOf s.traditional * w.traditional +
    probOf s.enhancedAI * w.enhancedAI + probOf s.tensorflow * w.tensorflow +
    probOf s.onnx * w.onnxWeb) / sumW
  { score := score, aiProb := aiProb }

/-- The four confusion counters of `evaluateDataset`'s loop. -/
structure Counts where
  tp : ℕ
  tn : ℕ
  fp : ℕ
  fn : ℕ
deriving DecidableEq

/-- One iteration of `evaluateDataset`'s `for` loop over the samples. -/
def evalStep (w : Weights) (th : ℚ) (c : Counts) (s : Sample) : Counts :=
  let aiProb := (combineSample s w).aiProb
  let predAI := decide (th ≤ aiProb)
  let isAI := jsTruthy s.label
  if predAI && isAI then { c with tp := c.tp + 1 }
  else if predAI && !isAI then { c with fp := c.fp + 1 }
  else if !predAI && !isAI then { c with tn := c.tn + 1 }
  else { c with fn := c.fn + 1 }

/-- Result record of `evaluateDataset`. -/
structure Metrics where
  acc : ℚ
  f1 : ℚ
  tp : ℕ
  tn : ℕ
  fp : ℕ
  fn : ℕ
deriving DecidableEq

/-- Embedding of `evaluateDataset(samples, weights, threshold)` from
`calibration.js`. -/
def evaluateDataset (samples : List Sample) (w : Weights) (th : ℚ) : Metrics :=
  let c := samples.foldl (evalStep w th) ⟨0, 0, 0, 0⟩
  let acc : ℚ := ((c.tp + c.tn : ℕ) : ℚ) / ((max 1 samples.length : ℕ) : ℚ)
  let prc : ℚ := (c.tp : ℚ) / ((max 1 (c.tp + c.fp) : ℕ) : ℚ)
  let rcl : ℚ := (c.tp : ℚ) / ((max 1 (c.tp + c.fn) : ℕ) : ℚ)
  let f1 : ℚ := if 0 < prc + rcl then 2 * prc * rcl / (prc + rcl) else 0
  { acc := acc, f1 := f1, tp := c.tp, tn := c.tn, fp := c.fp, fn := c.fn }

/-- The 11-point weight grid `steps` of `gridSearch`. -/
def steps : List ℚ :=
  [0, 1/10, 2/10, 3/10, 4/10, 5/10, 6/10, 7/10, 8/10, 9/10, 1]

/-- The candidate thresholds of `gridSearch`. -/
def thresholds : List ℚ := [4/10, 5/10, 6/10, 7/10]

/-- The best-so-far record of `gridSearch`; `weights` is `null` in the
sentinel. -/
structure Best where
  weights : Option Weights
  threshold : ℚ
  acc : ℚ
  f1 : ℚ
deriving DecidableEq

/-- The initial best of `gridSearch`:
`{ weights: null, threshold: 0.5, acc: 0, f1: 0 }`. -/
def sentinelBest : Best := { weights := none, threshold := 1/2, acc := 0, f1 := 0 }

/-- The strict-improvement test of `gridSearch`:
`m.f1 > best.f1 || (m.f1 === best.f1 && m.acc > best.acc)`, read as a
comparison between the candidate record `c` and the current best `b`. -/
def bGt (c b : Best) : Prop := c.f1 > b.f1 ∨ (c.f1 = b.f1 ∧ c.acc > b.acc)

instance (c b : Best) : Decidable (bGt c b) := by
  unfold bGt; exact inferInstance

/-- The update applied for one candidate: keep `b` unless `c` strictly
improves it. -/
def pickBest (b c : Best) : Best := if bGt c b then c else b

/-- The configuration enumerated by one iteration of `gridSearch`'s inner
loops, turned into the candidate `Best` record the loop body would install. -/
def toBest (samples : List Sample) (cfg : Weights × ℚ) : Best :=
  let m := evaluateDataset samples cfg.1 cfg.2
  { weights := some cfg.1, threshold := cfg.2, acc := m.acc, f1 := m.f1 }

/-- The exact enumeration order of `gridSearch`'s four nested loops: `wt`,
`we`, `won` each over `steps`, `wtf` fixed at `0`, combinations with
nonpositive weight sum skipped by `continue`, then the four thresholds. -/
def gridConfigs : List (Weights × ℚ) :=
  steps.flatMap fun wt =>
    steps.flatMap fun we =>
      steps.flatMap fun won =>
        let wtf : ℚ := 0
        let wsum := wt + we + won + wtf
        if wsum ≤ 0 then []
        else thresholds.map fun th =>
          (({ traditional := wt, enhancedAI := we, tensorflow := wtf,
              onnxWeb := won } : Weights), th)

/-- Embedding of `gridSearch(samples)` from `calibration.js`: fold the
strict-improvement update over the fixed enumeration, starting from the
sentinel. -/
def gridSearch (samples : List Sample) : Best :=
  gridConfigs.foldl (fun b cfg => pickBest b (toBest samples cfg)) sentinelBest

/-- The mutable browser state the calibration flow touches:
`AppConfig.WEIGHTS.ENSEMBLE` plus the two `localStorage` keys
`ensembleWeights` and `ensembleThreshold`. -/
structure AppState where
  ens : Weights
  lsWeights : Option Weights
  lsThreshold : Option ℚ
deriving DecidableEq

/-- Embedding of `persistWeights(best)`: `next = {...current, ...best.weights}`
(spreading `null` leaves `current` unchanged, spreading a full weight object
replaces every key), both `localStorage` keys are written, and `next` is
`Object.assign`ed onto `AppConfig.WEIGHTS.ENSEMBLE`. -/
def persistWeights (best : Best) (st : AppState) : AppState :=
  let current := st.ens
  let next := match best.weights with
    | none => current
    | some w => w
  { ens := next, lsWeights := some next, lsThreshold := some best.threshold }

/-- Parsed calibration upload: either a JSON array decoded into samples, or
any non-array JSON value. -/
inductive CalibInput where
  | arr (samples : List Sample)
  | notArr
deriving DecidableEq

/-- Outcome of one run of the calibration `input.onchange` handler: the state
afterwards, the failure alert (if the handler threw), and the success payload
(if it completed). -/
structure CalibOutcome where
  state : AppState
  error : Option String
  result : Option Best
deriving DecidableEq

/-- Embedding of the calibration upload handler in `injectUI`: non-array JSON
throws `'JSON must be an array of samples'` (caught and alerted, nothing
persisted); otherwise `gridSearch` runs and `persistWeights` applies its
result, and the success alert reports the best configuration. -/
def calibRun (st : AppState) (input : CalibInput) : CalibOutcome :=
  match input with
  | .notArr =>
      { state := st, error := some "JSON must be an array of samples",
        result := none }
  | .arr samples =>
      let best := gridSearch samples
      { state := persistWeights best st, error := none, result := some best }

/-- A method result as consumed by `XRayDetectorApp.combineResults`:
`confidence` is always set by the producing wrappers, `aiProbability` may be
absent (the traditional wrapper never sets it), and `method` tags fallbacks. -/
structure MRes where
  confidence : ℚ
  aiProbability : Option ℚ
  method : String
deriving DecidableEq

/-- Embedding of JavaScript `x || 0.5` on a possibly-absent number: both
`undefined` and an explicit `0` are falsy and become `0.5`. -/
def jsOrHalf : Option ℚ → ℚ
  | none => 1/2
  | some v => if v = 0 then 1/2 else v

/-- Embedding of `Math.round` (round half toward positive infinity). -/
def jsRound (x : ℚ) : ℤ := ⌊x + 1/2⌋

/-- The weight-selection chain at the top of `combineResults`: the
hard-coded `(traditionalWeight, tensorflowWeight, enhancedAIWeight)` triple
chosen from the two fallback `method` tags. -/
def liveWeights (tensorflow enhancedAI : MRes) : ℚ × ℚ × ℚ :=
  if tensorflow.method = "Fallback Analysis" ∧
      enhancedAI.method = "Enhanced AI Fallback" then (8/10, 1/10, 1/10)
  else if tensorflow.method = "Fallback Analysis" then (2/10, 1/10, 7/10)
  else if enhancedAI.method = "Enhanced AI Fallback" then (2/10, 7/10, 1/10)
  else (2/10, 3/10, 5/10)

/-- The fused verdict record returned by `combineResults`. -/
structure Combined where
  confidence : ℤ
  status : String
  details : List String
  aiProbability : ℚ
deriving DecidableEq

/-- Embedding of `XRayDetectorApp.combineResults(traditional, tensorflow,
enhancedAI)`. -/
def combineResults (traditional tensorflow enhancedAI : MRes) : Combined :=
  let w := liveWeights tensorflow enhancedAI
  let traditionalWeight := w.1
  let tensorflowWeight := w.2.1
  let enhancedAIWeight := w.2.2
  let combinedConfidence := jsRound (traditional.confidence * traditionalWeight +
    tensorflow.confidence * tensorflowWeight +
    enhancedAI.confidence * enhancedAIWeight)
  let combinedAIProbability :=
    jsOrHalf traditional.aiProbability * traditionalWeight +
    jsOrHalf tensorflow.aiProbability * tensorflowWeight +
    jsOrHalf enhancedAI.aiProbability * enhancedAIWeight
  let status :=
    if 7/10 < combinedAIProbability then "Likely AI Generated"
    else if 4/10 < combinedAIProbability then
      "Suspicious - Manual Review Recommended"
    else "Likely Authentic"
  let details :=
    if 7/10 < combinedAIProbability then
      "Multiple advanced detection methods indicate AI generation"
    else if 4/10 < combinedAIProbability then
      "Mixed indicators detected, enhanced analysis suggests potential AI generation"
    else "Advanced analysis indicates authentic medical image"
  { confidence := combinedConfidence, status := status, details := [details],
    aiProbability := combinedAIProbability }

/-- The combination the app performs while the config store holds `st`.  The
source call site (`performAnalysis`) invokes `this.combineResults` with only
the three method results; no configuration is read, which this definition
records by taking the state as an unused explicit argument. -/
def performCombine (st : AppState) (traditional tensorflow enhancedAI : MRes) :
    Combined :=
  combineResults traditional tensorflow enhancedAI

/-- The calibrator's sample carrying exactly the per-method inputs the live
combiner receives: the live call has no `onnx` component. -/
def sampleFrom (traditional tensorflow enhancedAI : MRes) : Sample :=
  { label := none,
    traditional :=
      some ⟨some traditional.confidence, traditional.aiProbability⟩,
    enhancedAI := some ⟨some enhancedAI.confidence, enhancedAI.aiProbability⟩,
    tensorflow := some ⟨some tensorflow.confidence, tensorflow.aiProbability⟩,
    onnx := none }

/-- A method entry as consumed by `EnhancedAIAnalyzer.calculateOverallResults`
(every detection method sets all three fields). -/
structure MethodRes where
  confidence : ℚ
  aiProbability : ℚ
  details : List String
deriving DecidableEq

/-- Accumulators of `calculateOverallResults`' `forEach` loop. -/
structure OverallAcc where
  totalConfidence : ℚ
  totalAIProbability : ℚ
  methodCount : ℕ
  allDetails : List String
deriving DecidableEq

/-- The overall record returned by `calculateOverallResults`. -/
structure Overall where
  confidence : ℤ
  status : String
  details : List String
  aiProbability : ℚ
deriving DecidableEq

/-- Embedding of `EnhancedAIAnalyzer.calculateOverallResults(methods)`; the
list carries `Object.values(methods)` in iteration order. -/
def calculateOverallResults (methods : List MethodRes) : Overall :=
  let a := methods.foldl (fun (a : OverallAcc) m =>
    if 0 < m.confidence then
      { totalConfidence := a.totalConfidence + m.confidence
        totalAIProbability := a.totalAIProbability + m.aiProbability
        methodCount := a.methodCount + 1
        allDetails := a.allDetails ++ m.details }
    else a) ⟨0, 0, 0, []⟩
  let averageConfidence : ℚ :=
    if 0 < a.methodCount then a.totalConfidence / (a.methodCount : ℚ) else 50
  let averageAIProbability : ℚ :=
    if 0 < a.methodCount then a.totalAIProbability / (a.methodCount : ℚ)
    else 1/2
  let status :=
    if 7/10 < averageAIProbability then "Likely AI Generated"
    else if 4/10 < averageAIProbability then
      "Suspicious - Manual Review Recommended"
    else "Likely Authentic"
  { confidence := jsRound averageConfidence, status := status,
    details := a.allDetails.take 10, aiProbability := averageAIProbability }

/-! Concrete fixtures used by counterexamples and witnesses. -/

/-- A traditional-analysis result (the wrapper tags it with this `method`). -/
def tC : MRes := ⟨30, some (9/10), "Traditional Analysis"⟩

/-- A successful TensorFlow result (not the fallback tag). -/
def tfC : MRes := ⟨60, some (1/10), "TensorFlow Analysis"⟩

/-- A successful enhanced-AI result (not the fallback tag). -/
def eC : MRes := ⟨70, some (1/10), "Enhanced AI Analysis"⟩

/-- The shipped `AppConfig.WEIGHTS.ENSEMBLE` default:
`traditional: 0.3, onnxWeb: 0.3, tensorflow: 0.0, enhancedAI: 0.4`. -/
def wDef : Weights := ⟨3/10, 4/10, 0, 3/10⟩

/-- A weight vector putting all weight on the traditional method; it lies on
the calibration grid. -/
def wAllTrad : Weights := ⟨1, 0, 0, 0⟩

/-- A calibration result carrying `wAllTrad`. -/
def bestAllTrad : Best := ⟨some wAllTrad, 1/2, 1, 1⟩

/-- An app state holding the shipped default weights and empty storage. -/
def st0 : AppState := ⟨wDef, none, none⟩

/-- A sample every detector judged maximally authentic (`aiProbability` an
explicit `0` everywhere) yet labeled AI. -/
def degSample : Sample :=
  ⟨some 1, some ⟨some 50, some 0⟩, some ⟨some 50, some 0⟩,
    some ⟨some 50, some 0⟩, some ⟨some 50, some 0⟩⟩

/-- A sample with no `label` field. -/
def sNoLabel : Sample :=
  ⟨none, some ⟨some 30, some (8/10)⟩, some ⟨some 25, some (85/100)⟩, none, none⟩

/-! Helper lemmas. -/

/-- The divisor `combineSample` uses is never zero: a zero weight sum falls
back to `1`. -/
lemma activeSum_ne_zero (w : Weights) : activeSum w ≠ 0 := by
  unfold activeSum qOr1
  split_ifs with h
  · exact one_ne_zero
  · exact h

/-- Nullish coalescing and `|| 0.5` agree whenever the value is not an
explicit `0`. -/
lemma jsOrHalf_eq_getD {x : Option ℚ} (h : x ≠ some 0) :
    jsOrHalf x = x.getD (1/2) := by
  cases x with
  | none => rfl
  | some v =>
    have hv : v ≠ 0 := fun h0 => h (by rw [h0])
    simp [jsOrHalf, hv]

/-- C6 (amended): when the active weight sum is exactly `0`, `combineSample`
divides by the fallback `1` (the divisor is never `0`), but the output is not
the neutral `50`/`0.5`: with all four weights zero the numerators are zero as
well, so the result is `score = 0`, `aiProb = 0`. -/
theorem combineSample_zero_weight_sum :
    (∀ w : Weights, activeSum w ≠ 0) ∧
    (∀ s : Sample, combineSample s ⟨0, 0, 0, 0⟩ = ⟨0, 0⟩) := by
  refine ⟨activeSum_ne_zero, fun s => ?_⟩
  simp [combineSample, activeSum, qOr1]

/-- C6 counterexample: for the all-absent sample and the all-zero weight
vector the claim predicts the neutral `{score: 50, aiProb: 0.5}`, but
`combineSample` returns `{score: 0, aiProb: 0}`. -/
theorem combineSample_zero_weights_not_neutral :
    combineSample ⟨none, none, none, none, none⟩ ⟨0, 0, 0, 0⟩ = ⟨0, 0⟩ ∧
    (⟨0, 0⟩ : ScoreProb) ≠ ⟨50, 1/2⟩ := by
  constructor
  · simp [combineSample, activeSum, qOr1]
  · intro h
    have h2 := congrArg ScoreProb.score h
    norm_num at h2

/-- C7: `calculateOverallResults` is a total function of its inputs (the
embedding never throws), and on an empty method mapping it returns the
neutral verdict: confidence `50`, status
`"Suspicious - Manual Review Recommended"`, aiProbability `0.5`. -/
theorem calculateOverallResults_all_absent :
    calculateOverallResults [] =
      ⟨50, "Suspicious - Manual Review Recommended", [], 1/2⟩ := by
  have h50 : jsRound 50 = 50 := by
    unfold jsRound
    rw [Int.floor_eq_iff]
    norm_num
  norm_num [calculateOverallResults, h50]

/-- C8 (amended): the calibration upload handler rejects exactly the
non-array inputs, with the message `'JSON must be an array of samples'` and
the state untouched; an array input always runs to completion with no error,
a missing `label` being coerced to authentic (`!!undefined = false`) and a
missing component or field being replaced by the neutral `50`/`0.5`. -/
theorem calibRun_rejects_only_non_array :
    (∀ st : AppState, calibRun st .notArr =
      { state := st, error := some "JSON must be an array of samples",
        result := none }) ∧
    (∀ (st : AppState) (samples : List Sample),
      (calibRun st (.arr samples)).error = none) ∧
    jsTruthy none = false ∧ confOf none = 50 ∧ probOf none = 1/2 :=
  ⟨fun _ => rfl, fun _ _ => rfl, rfl, rfl, rfl⟩

/-- C8 counterexample: a dataset whose sample has no `label` field is not
rejected — the run finishes without error and the state is mutated
(`ensembleThreshold` is written), contradicting the claimed rejection with an
unchanged config. -/
theorem calibRun_missing_label_not_rejected :
    (calibRun st0 (.arr [sNoLabel])).error = none ∧
    (calibRun st0 (.arr [sNoLabel])).state.lsThreshold ≠ st0.lsThreshold := by
  refine ⟨rfl, ?_⟩
  simp [calibRun, persistWeights, st0]

/-- C5 (amended): the live combiner does not consult the config store: the
combination performed after any calibration has been applied is identical to
the one performed before, even though `persistWeights` really does overwrite
`AppConfig.WEIGHTS.ENSEMBLE` with the calibrated weights. -/
theorem persistWeights_does_not_affect_combine :
    (∀ (st st2 : AppState) (t tf e : MRes),
      performCombine st t tf e = performCombine st2 t tf e) ∧
    (∀ (w : Weights) (best : Best) (st : AppState), best.weights = some w →
      (persistWeights best st).ens = w) := by
  refine ⟨fun _ _ _ _ _ => rfl, fun w best st h => ?_⟩
  simp [persistWeights, h]

/-- Witness for the C5 theorem: applying the all-traditional calibration
result really rewrites the stored ensemble weights. -/
theorem persistWeights_does_not_affect_combine_witness :
    bestAllTrad.weights = some wAllTrad ∧
    (persistWeights bestAllTrad st0).ens = wAllTrad :=
  ⟨rfl, persistWeights_does_not_affect_combine.2 wAllTrad bestAllTrad st0 rfl⟩

/-- C5 counterexample: after applying a calibration that moves all ensemble
weight onto the traditional method, the store visibly changes, yet the very
next `combineResults` output is unchanged and does not equal the weighted
average under the stored weights (it stays `0.26` where the stored weights
demand `0.9`). -/
theorem live_combiner_ignores_store :
    (persistWeights bestAllTrad st0).ens ≠ st0.ens ∧
    performCombine (persistWeights bestAllTrad st0) tC tfC eC =
      performCombine st0 tC tfC eC ∧
    (combineSample (sampleFrom tC tfC eC)
        (persistWeights bestAllTrad st0).ens).aiProb ≠
      (performCombine (persistWeights bestAllTrad st0) tC tfC eC).aiProbability := by
  have hens : (persistWeights bestAllTrad st0).ens = wAllTrad := rfl
  rw [hens]
  refine ⟨?_, rfl, ?_⟩
  · intro h
    have h2 := congrArg Weights.traditional h
    simp only [wAllTrad, st0, wDef] at h2
    norm_num at h2
  · show (combineSample (sampleFrom tC tfC eC) wAllTrad).aiProb ≠
      (combineResults tC tfC eC).aiProbability
    have hs1 : "TensorFlow Analysis" ≠ "Fallback Analysis" := by decide
    have hs2 : "Enhanced AI Analysis" ≠ "Enhanced AI Fallback" := by decide
    norm_num [combineSample, sampleFrom, probOf, confOf, activeSum, qOr1,
      combineResults, jsOrHalf, liveWeights, wAllTrad, tC, tfC, eC, hs1, hs2]

/-- C9: in the live combiner an explicit `aiProbability` of `0` is falsy and
becomes the neutral `0.5`, indistinguishable from an absent value; the
calibrator's `combineSample` instead keeps the explicit `0`, whose fused
probability sits exactly `0.5 · weight / activeSum` below the absent-value
run. -/
theorem zero_aiProbability_coalescing :
    (∀ t tf e : MRes, combineResults { t with aiProbability := some 0 } tf e =
      combineResults { t with aiProbability := none } tf e) ∧
    (∀ t tf e : MRes, combineResults t { tf with aiProbability := some 0 } e =
      combineResults t { tf with aiProbability := none } e) ∧
    (∀ t tf e : MRes, combineResults t tf { e with aiProbability := some 0 } =
      combineResults t tf { e with aiProbability := none }) ∧
    (∀ (c : Component) (s : Sample) (w : Weights),
      (combineSample { s with traditional := some { c with aiProbability := some 0 } } w).aiProb =
      (combineSample { s with traditional := some { c with aiProbability := none } } w).aiProb
        - 1/2 * w.traditional / activeSum w) := by
  refine ⟨?_, ?_, ?_, ?_⟩
  · intro t tf e; simp [combineResults, jsOrHalf, liveWeights]
  · intro t tf e; simp [combineResults, jsOrHalf, liveWeights]
  · intro t tf e; simp [combineResults, jsOrHalf, liveWeights]
  · intro c s w
    have hS := activeSum_ne_zero w
    simp only [combineSample, probOf, confOf, Option.getD_some, Option.getD_none]
    field_simp
    ring

/-- Status selection of the shared band chain, as a function of the fused
probability and three pairwise-distinct labels. -/
lemma band_eq_iff (p : ℚ) {A B C : String} (hAB : A ≠ B) (hAC : A ≠ C)
    (hBC : B ≠ C) :
    ((if 7/10 < p then A else if 4/10 < p then B else C) = A ↔ 7/10 < p) ∧
    ((if 7/10 < p then A else if 4/10 < p then B else C) = B ↔
      4/10 < p ∧ p ≤ 7/10) ∧
    ((if 7/10 < p then A else if 4/10 < p then B else C) = C ↔ p ≤ 4/10) := by
  refine ⟨?_, ?_, ?_⟩
  · split_ifs with h1 h2
    · exact iff_of_true rfl h1
    · exact iff_of_false (fun h => hAB h.symm) h1
    · exact iff_of_false (fun h => hAC h.symm) h1
  · split_ifs with h1 h2
    · exact iff_of_false hAB (fun hx => not_le.mpr h1 hx.2)
    · exact iff_of_true rfl ⟨h2, not_lt.mp h1⟩
    · exact iff_of_false (fun h => hBC h.symm) (fun hx => h2 hx.1)
  · split_ifs with h1 h2
    · refine iff_of_false hAC (fun hx => ?_)
      have := lt_of_lt_of_le h1 hx
      norm_num at this
    · exact iff_of_false hBC (fun hx => not_lt.mpr hx h2)
    · exact iff_of_true rfl (not_lt.mp h2)

/-- The status of `combineResults` is the band chain applied to its own fused
probability. -/
lemma combineResults_status (t tf e : MRes) :
    (combineResults t tf e).status =
      (if 7/10 < (combineResults t tf e).aiProbability then
        "Likely AI Generated"
      else if 4/10 < (combineResults t tf e).aiProbability then
        "Suspicious - Manual Review Recommended"
      else "Likely Authentic") := rfl

/-- The status of `calculateOverallResults` is the band chain applied to its
own fused probability. -/
lemma calculateOverallResults_status (ms : List MethodRes) :
    (calculateOverallResults ms).status =
      (if 7/10 < (calculateOverallResults ms).aiProbability then
        "Likely AI Generated"
      else if 4/10 < (calculateOverallResults ms).aiProbability then
        "Suspicious - Manual Review Recommended"
      else "Likely Authentic") := rfl

/-- C3: in both combiners the verdict bands are exclusive at both cut points:
the status is `"Likely AI Generated"` iff the fused probability exceeds
`0.7`, the suspicious status iff it lies in `(0.4, 0.7]`, and
`"Likely Authentic"` iff it is at most `0.4`. -/
theorem status_bands :
    (∀ t tf e : MRes,
      ((combineResults t tf e).status = "Likely AI Generated" ↔
        7/10 < (combineResults t tf e).aiProbability) ∧
      ((combineResults t tf e).status = "Suspicious - Manual Review Recommended" ↔
        4/10 < (combineResults t tf e).aiProbability ∧
          (combineResults t tf e).aiProbability ≤ 7/10) ∧
      ((combineResults t tf e).status = "Likely Authentic" ↔
        (combineResults t tf e).aiProbability ≤ 4/10)) ∧
    (∀ ms : List MethodRes,
      ((calculateOverallResults ms).status = "Likely AI Generated" ↔
        7/10 < (calculateOverallResults ms).aiProbability) ∧
      ((calculateOverallResults ms).status = "Suspicious - Manual Review Recommended" ↔
        4/10 < (calculateOverallResults ms).aiProbability ∧
          (calculateOverallResults ms).aiProbability ≤ 7/10) ∧
      ((calculateOverallResults ms).status = "Likely Authentic" ↔
        (calculateOverallResults ms).aiProbability ≤ 4/10)) := by
  constructor
  · intro t tf e
    rw [combineResults_status]
    exact band_eq_iff ((combineResults t tf e).aiProbability)
      (by decide) (by decide) (by decide)
  · intro ms
    rw [calculateOverallResults_status]
    exact band_eq_iff ((calculateOverallResults ms).aiProbability)
      (by decide) (by decide) (by decide)

/-- C4 (amended): the calibrator's `combineSample` reproduces the live
combiner's fused probability only under the hard-coded weight triple the live
combiner selects from the fallback tags (extended with `onnxWeb = 0`), and
only when no method reports an explicit `aiProbability` of `0` (the live
`|| 0.5` and the calibrator's `?? 0.5` differ there). -/
theorem combineSample_matches_live_hardcoded (t tf e : MRes)
    (h1 : t.aiProbability ≠ some 0) (h2 : tf.aiProbability ≠ some 0)
    (h3 : e.aiProbability ≠ some 0) :
    (combineSample (sampleFrom t tf e)
      ⟨(liveWeights tf e).1, (liveWeights tf e).2.2, (liveWeights tf e).2.1, 0⟩).aiProb =
    (combineResults t tf e).aiProbability := by
  have g1 := jsOrHalf_eq_getD h1
  have g2 := jsOrHalf_eq_getD h2
  have g3 := jsOrHalf_eq_getD h3
  simp only [combineResults, combineSample, sampleFrom, activeSum, qOr1,
    probOf, confOf, g1, g2, g3]
  unfold liveWeights
  split_ifs with ha hb hc <;> norm_num <;> ring

/-- Witness for the C4 theorem at concrete non-fallback inputs. -/
theorem combineSample_matches_live_hardcoded_witness :
    tC.aiProbability ≠ some 0 ∧ tfC.aiProbability ≠ some 0 ∧
    eC.aiProbability ≠ some 0 ∧
    (combineSample (sampleFrom tC tfC eC)
      ⟨(liveWeights tfC eC).1, (liveWeights tfC eC).2.2,
        (liveWeights tfC eC).2.1, 0⟩).aiProb =
    (combineResults tC tfC eC).aiProbability :=
  ⟨by norm_num [tC], by norm_num [tfC], by norm_num [eC],
    combineSample_matches_live_hardcoded tC tfC eC (by norm_num [tC])
      (by norm_num [tfC]) (by norm_num [eC])⟩

/-- C4 counterexample: under the shipped `AppConfig.WEIGHTS.ENSEMBLE` weight
vector the calibrator's fused probability (`0.46`) differs from what the live
combiner produces from the same per-method inputs (`0.26`) — the live
combiner does not parameterize over the weight vector at all. -/
theorem combineSample_differs_from_live_under_config_weights :
    (combineSample (sampleFrom tC tfC eC) wDef).aiProb ≠
      (combineResults tC tfC eC).aiProbability := by
  have hs1 : "TensorFlow Analysis" ≠ "Fallback Analysis" := by decide
  have hs2 : "Enhanced AI Analysis" ≠ "Enhanced AI Fallback" := by decide
  norm_num [combineSample, sampleFrom, probOf, confOf, activeSum, qOr1,
    combineResults, jsOrHalf, liveWeights, wDef, tC, tfC, eC, hs1, hs2]

/-- The per-sample prediction of `evaluateDataset`'s loop:
`predAI = aiProb >= threshold`. -/
def predB (w : Weights) (th : ℚ) (s : Sample) : Bool :=
  decide (th ≤ (combineSample s w).aiProb)

/-- The per-sample ground truth read by the loop: `isAI = !!s.label`. -/
def isAIB (s : Sample) : Bool := jsTruthy s.label

/-- The precision `tp / max(1, tp+fp)` derived from a metrics record. -/
def precisionOf (m : Metrics) : ℚ :=
  (m.tp : ℚ) / ((max 1 (m.tp + m.fp) : ℕ) : ℚ)

/-- The recall `tp / max(1, tp+fn)` derived from a metrics record. -/
def recallOf (m : Metrics) : ℚ :=
  (m.tp : ℚ) / ((max 1 (m.tp + m.fn) : ℕ) : ℚ)

/-- The loop body of `evaluateDataset`, stated through the named prediction
and ground-truth tests. -/
lemma evalStep_eq (w : Weights) (th : ℚ) (c : Counts) (s : Sample) :
    evalStep w th c s =
      (if predB w th s && isAIB s then { c with tp := c.tp + 1 }
      else if predB w th s && !isAIB s then { c with fp := c.fp + 1 }
      else if !predB w th s && !isAIB s then { c with tn := c.tn + 1 }
      else { c with fn := c.fn + 1 }) := rfl

/-- The confusion counters accumulated by the loop are exactly the four
prediction/label counts, shifted by the starting counters. -/
lemma foldl_evalStep_counts (w : Weights) (th : ℚ) (samples : List Sample) :
    ∀ c : Counts, samples.foldl (evalStep w th) c =
      ⟨c.tp + samples.countP (fun s => predB w th s && isAIB s),
       c.tn + samples.countP (fun s => !predB w th s && !isAIB s),
       c.fp + samples.countP (fun s => predB w th s && !isAIB s),
       c.fn + samples.countP (fun s => !predB w th s && isAIB s)⟩ := by
  induction samples with
  | nil => intro c; simp
  | cons s ss ih =>
    intro c
    rw [List.foldl_cons, ih (evalStep w th c s), evalStep_eq]
    cases hp : predB w th s <;> cases hi : isAIB s <;>
      simp [hp, hi, List.countP_cons, Counts.mk.injEq] <;> omega

/-- C2: `evaluateDataset` predicts AI exactly when the fused probability
reaches the threshold, its four counters are the corresponding
prediction/ground-truth counts, and it returns
`accuracy = (TP+TN)/max(1,N)` and `f1 = 2PR/(P+R)` (`0` when `P+R = 0`) with
`P = TP/max(1,TP+FP)` and `R = TP/max(1,TP+FN)`. -/
theorem evaluateDataset_spec (samples : List Sample) (w : Weights) (th : ℚ) :
    (∀ s : Sample, predB w th s = true ↔ th ≤ (combineSample s w).aiProb) ∧
    (evaluateDataset samples w th).tp =
      samples.countP (fun s => predB w th s && isAIB s) ∧
    (evaluateDataset samples w th).fp =
      samples.countP (fun s => predB w th s && !isAIB s) ∧
    (evaluateDataset samples w th).tn =
      samples.countP (fun s => !predB w th s && !isAIB s) ∧
    (evaluateDataset samples w th).fn =
      samples.countP (fun s => !predB w th s && isAIB s) ∧
    (evaluateDataset samples w th).acc =
      (((evaluateDataset samples w th).tp + (evaluateDataset samples w th).tn : ℕ) : ℚ) /
        ((max 1 samples.length : ℕ) : ℚ) ∧
    (evaluateDataset samples w th).f1 =
      (if 0 < precisionOf (evaluateDataset samples w th) +
          recallOf (evaluateDataset samples w th) then
        2 * precisionOf (evaluateDataset samples w th) *
          recallOf (evaluateDataset samples w th) /
          (precisionOf (evaluateDataset samples w th) +
            recallOf (evaluateDataset samples w th))
      else 0) := by
  have h := foldl_evalStep_counts w th samples ⟨0, 0, 0, 0⟩
  refine ⟨fun s => by simp [predB], ?_, ?_, ?_, ?_, rfl, rfl⟩ <;>
    simp [evaluateDataset, h]

/-! Order lemmas for the strict-improvement comparison of `gridSearch`. -/

lemma pickBest_pos {b c : Best} (h : bGt c b) : pickBest b c = c := if_pos h

lemma pickBest_neg {b c : Best} (h : ¬ bGt c b) : pickBest b c = b := if_neg h

lemma bGt_trans {a b c : Best} (h1 : bGt a b) (h2 : bGt b c) : bGt a c := by
  unfold bGt at *
  rcases h1 with h1 | ⟨h1e, h1a⟩ <;> rcases h2 with h2 | ⟨h2e, h2a⟩
  · exact Or.inl (lt_trans h2 h1)
  · exact Or.inl (h2e ▸ h1)
  · exact Or.inl (by rw [h1e]; exact h2)
  · exact Or.inr ⟨h1e.trans h2e, lt_trans h2a h1a⟩

/-- A record that strictly improves on `i` also strictly improves on
anything that does not strictly improve on `i`. -/
lemma bGt_of_bGt_of_not {r i c : Best} (h : bGt r i) (hc : ¬ bGt c i) :
    bGt r c := by
  unfold bGt at *
  push_neg at hc
  obtain ⟨hc1, hc2⟩ := hc
  rcases h with h | ⟨he, ha⟩
  · rcases lt_or_eq_of_le hc1 with h2 | h2
    · exact Or.inl (lt_trans h2 h)
    · exact Or.inl (h2 ▸ h)
  · rcases lt_or_eq_of_le hc1 with h2 | h2
    · exact Or.inl (by rw [he]; exact h2)
    · exact Or.inr ⟨he.trans h2.symm, lt_of_le_of_lt (hc2 h2) ha⟩

/-- Folding the strict-improvement update either keeps the initial record or
strictly improves on it. -/
lemma foldl_pickBest_ge (l : List Best) :
    ∀ init : Best, l.foldl pickBest init = init ∨
      bGt (l.foldl pickBest init) init := by
  induction l with
  | nil => intro init; exact Or.inl rfl
  | cons c l ih =>
    intro init
    rw [List.foldl_cons]
    by_cases h : bGt c init
    · rw [pickBest_pos h]
      rcases ih c with h0 | h0
      · rw [h0]; exact Or.inr h
      · exact Or.inr (bGt_trans h0 h)
    · rw [pickBest_neg h]
      exact ih init

/-- When no element strictly improves on the initial record, the fold
returns the initial record. -/
lemma foldl_pickBest_of_forall_not (l : List Best) :
    ∀ init : Best, (∀ b ∈ l, ¬ bGt b init) →
      l.foldl pickBest init = init := by
  induction l with
  | nil => intro init _; rfl
  | cons c l ih =>
    intro init h
    rw [List.foldl_cons, pickBest_neg (h c (List.mem_cons_self c l))]
    exact ih init fun b hb => h b (List.mem_cons_of_mem c hb)

/-- First-maximum property of the fold: the sequence starting with the
initial record splits around the fold's result, every earlier element being
strictly worse and no later element strictly better. -/
lemma foldl_pickBest_first (l : List Best) :
    ∀ init : Best,
      ∃ l1 l2, init :: l = l1 ++ (l.foldl pickBest init) :: l2 ∧
        (∀ b ∈ l1, bGt (l.foldl pickBest init) b) ∧
        (∀ b ∈ l2, ¬ bGt b (l.foldl pickBest init)) := by
  induction l with
  | nil =>
    intro init
    exact ⟨[], [], rfl, by simp, by simp⟩
  | cons c l ih =>
    intro init
    rw [List.foldl_cons]
    by_cases h : bGt c init
    · rw [pickBest_pos h]
      obtain ⟨l1, l2, heq, hl1, hl2⟩ := ih c
      have hri : bGt (l.foldl pickBest c) init := by
        rcases foldl_pickBest_ge l c with h0 | h0
        · rw [h0]; exact h
        · exact bGt_trans h0 h
      refine ⟨init :: l1, l2, ?_, ?_, hl2⟩
      · rw [List.cons_append, ← heq]
      · intro b hb
        rcases List.mem_cons.mp hb with rfl | hb
        · exact hri
        · exact hl1 b hb
    · rw [pickBest_neg h]
      obtain ⟨l1, l2, heq, hl1, hl2⟩ := ih init
      cases l1 with
      | nil =>
        simp only [List.nil_append] at heq
        injection heq with h1 h2
        refine ⟨[], c :: l2, ?_, by simp, ?_⟩
        · rw [List.nil_append, ← h1, ← h2]
        · intro b hb
          rcases List.mem_cons.mp hb with rfl | hb
          · rw [← h1]; exact h
          · exact hl2 b hb
      | cons a l1' =>
        rw [List.cons_append] at heq
        injection heq with h1 h2
        have hInit : bGt (l.foldl pickBest init) init := by
          have ha := hl1 a (List.mem_cons_self a l1')
          rwa [← h1] at ha
        refine ⟨init :: c :: l1', l2, ?_, ?_, hl2⟩
        · rw [List.cons_append, List.cons_append, ← h2]
        · intro b hb
          rcases List.mem_cons.mp hb with rfl | hb
          · exact hInit
          · rcases List.mem_cons.mp hb with rfl | hb
            · exact bGt_of_bGt_of_not hInit h
            · exact hl1 b (List.mem_cons_of_mem a hb)

/-- `gridSearch` is the strict-improvement fold over the candidate records of
the fixed enumeration. -/
lemma gridSearch_eq_foldl_map (samples : List Sample) :
    gridSearch samples =
      (gridConfigs.map (toBest samples)).foldl pickBest sentinelBest := by
  unfold gridSearch
  rw [List.foldl_map]

/-- C1 (amended): `gridSearch` examines exactly the fixed enumeration
`gridConfigs` (weights from the 11-point grid with `tensorflow` fixed at `0`,
nonpositive weight sums skipped, four thresholds) and returns the first
record — the sentinel `{weights: null, threshold: 0.5, acc: 0, f1: 0}`
included, in front — that lexicographically maximizes `(f1, acc)`: every
earlier record compares strictly lower, no later record compares strictly
higher.  Determinism over reruns is immediate since the embedding is a pure
function of the dataset. -/
theorem gridSearch_first_lex_max (samples : List Sample) :
    ∃ l1 l2, sentinelBest :: gridConfigs.map (toBest samples) =
        l1 ++ gridSearch samples :: l2 ∧
      (∀ b ∈ l1, bGt (gridSearch samples) b) ∧
      (∀ b ∈ l2, ¬ bGt b (gridSearch samples)) := by
  rw [gridSearch_eq_foldl_map]
  exact foldl_pickBest_first _ sentinelBest

/-- Every component of `degSample` reports an explicit `aiProbability` of
`0`, so the fused probability is `0` for every weight vector. -/
lemma combineSample_degSample (w : Weights) :
    (combineSample degSample w).aiProb = 0 := by
  simp [combineSample, degSample, probOf]

/-- On the degenerate dataset every evaluation at a positive threshold
mispredicts its single AI-labeled sample: all four counters collapse to one
false negative and both metrics are `0`. -/
lemma evaluateDataset_degSample (w : Weights) (th : ℚ) (hth : 0 < th) :
    evaluateDataset [degSample] w th = ⟨0, 0, 0, 0, 0, 1⟩ := by
  have h1 : predB w th degSample = false := by
    simp [predB, combineSample_degSample, not_le.mpr hth]
  have h2 : isAIB degSample = true := by simp [isAIB, degSample, jsTruthy]
  unfold evaluateDataset
  rw [List.foldl_cons, List.foldl_nil, evalStep_eq, h1, h2]
  norm_num

/-- Every configuration of the enumeration carries one of the four candidate
thresholds, all positive. -/
lemma gridConfigs_threshold_pos : ∀ cfg ∈ gridConfigs, (0 : ℚ) < cfg.2 := by
  intro cfg h
  simp only [gridConfigs, List.mem_flatMap] at h
  obtain ⟨wt, _, we, _, won, _, h⟩ := h
  split at h
  · simp at h
  · obtain ⟨th, hth, rfl⟩ := List.mem_map.mp h
    simp only [thresholds, List.mem_cons, List.not_mem_nil, or_false] at hth
    rcases hth with rfl | rfl | rfl | rfl <;> norm_num

/-- On the degenerate dataset every examined configuration scores
`f1 = 0, acc = 0`. -/
lemma degSample_allzero : ∀ cfg ∈ gridConfigs,
    (evaluateDataset [degSample] cfg.1 cfg.2).f1 = 0 ∧
    (evaluateDataset [degSample] cfg.1 cfg.2).acc = 0 := by
  intro cfg h
  rw [evaluateDataset_degSample cfg.1 cfg.2 (gridConfigs_threshold_pos cfg h)]
  exact ⟨rfl, rfl⟩

/-- When no configuration beats the sentinel's `(f1, acc) = (0, 0)`,
`gridSearch` returns the sentinel itself. -/
lemma gridSearch_sentinel_of_allzero (samples : List Sample)
    (h : ∀ cfg ∈ gridConfigs,
      (evaluateDataset samples cfg.1 cfg.2).f1 = 0 ∧
      (evaluateDataset samples cfg.1 cfg.2).acc = 0) :
    gridSearch samples = sentinelBest := by
  rw [gridSearch_eq_foldl_map]
  apply foldl_pickBest_of_forall_not
  intro b hb
  obtain ⟨cfg, hcfg, rfl⟩ := List.mem_map.mp hb
  obtain ⟨h1, h2⟩ := h cfg hcfg
  unfold toBest bGt
  simp [h1, h2, sentinelBest]

/-- The first configuration `gridSearch`'s loops reach: `wt = 0, we = 0,
won = 0.1, threshold = 0.4`. -/
def firstValidConfig : Weights × ℚ := (⟨0, 0, 0, 1/10⟩, 4/10)

/-- C1 counterexample: on the dataset whose single AI-labeled sample carries
explicit `aiProbability = 0` everywhere, every grid configuration scores
`(f1, acc) = (0, 0)`, so `gridSearch` returns the sentinel's `null` weights
rather than any configuration of the enumeration — although the enumeration
is nonempty (its first configuration is exhibited). -/
theorem gridSearch_degenerate_returns_null :
    (gridSearch [degSample]).weights = none ∧
    firstValidConfig ∈ gridConfigs := by
  constructor
  · rw [gridSearch_sentinel_of_allzero [degSample] degSample_allzero]; rfl
  · simp only [gridConfigs, List.mem_flatMap]
    refine ⟨0, by simp [steps], 0, by simp [steps], 1/10, ?_, ?_⟩
    · simp [steps]
    · rw [if_neg (by norm_num)]
      refine List.mem_map.mpr ⟨4/10, by simp [thresholds], rfl⟩

/-- C10: on any dataset where every grid configuration yields `f1 = 0` and
`acc = 0`, `gridSearch` keeps the sentinel (`weights: null`,
`threshold: 0.5`), `persistWeights` re-persists the existing ensemble
weights unchanged together with threshold `0.5`, and the calibration run
finishes without error (it is reported as a success). -/
theorem gridSearch_null_persists_existing (samples : List Sample)
    (st : AppState)
    (h : ∀ cfg ∈ gridConfigs,
      (evaluateDataset samples cfg.1 cfg.2).f1 = 0 ∧
      (evaluateDataset samples cfg.1 cfg.2).acc = 0) :
    gridSearch samples = sentinelBest ∧
    persistWeights (gridSearch samples) st =
      { ens := st.ens, lsWeights := some st.ens, lsThreshold := some (1/2) } ∧
    (calibRun st (.arr samples)).error = none := by
  have hs := gridSearch_sentinel_of_allzero samples h
  refine ⟨hs, ?_, rfl⟩
  rw [hs]
  rfl

/-- Witness for the C10 theorem on the concrete degenerate dataset and the
shipped default state. -/
theorem gridSearch_null_persists_existing_witness :
    gridSearch [degSample] = sentinelBest ∧
    persistWeights (gridSearch [degSample]) st0 =
      { ens := st0.ens, lsWeights := some st0.ens, lsThreshold := some (1/2) } ∧
    (calibRun st0 (.arr [degSample])).error = none :=
  gridSearch_null_persists_existing [degSample] st0 degSample_allzero

end XRay
